import Mathlib

/-!
# Verification development for the WhereIsIt backend (src/index.js)

A shallow embedding of the identity-resolution / authorization layer and the
recovery workflow of the Express + MongoDB server in `src/index.js`.

Modelling conventions:
* MongoDB documents become Lean structures with the fields the server reads
  and writes; `_id` values are `MongoId` (canonical ObjectId hex vs. legacy
  literal string, mirroring the dual-identifier shim in the routes).
* The three collections (`users`, `items`, `recoveries`) become lists inside
  a `DB` state value; `findOne` becomes `List.find?`, `updateOne` updates the
  first matching entry, `deleteOne` erases it, `deleteMany` filters.
* JavaScript `Date` values are `Option Int` (milliseconds; `none` is an
  Invalid Date).  The JS date parser (`Date.parse` / `new Date(string)`) is
  passed in as an explicit parameter `parse : String → Option Int`, so every
  theorem holds for an arbitrary parser.
* Request-body fields are `Option String` (`none` = key absent); JS
  truthiness of such a field is `jsTruthy` (absent or empty string is falsy).
* Each route handler becomes a function `DB → Except ApiError …`; returning
  `Except.error` models an early `res.status(4xx)` response, in which case
  the database is unchanged (no state is produced).  The `withTransaction`
  blocks of the recover and delete routes appear as a single atomic state
  change producing the post-transaction `DB`.
-/

namespace WIT

/-- A MongoDB `_id` value: either a canonical `ObjectId` (identified by its
24-character hex string) or a legacy literal string id. -/
inductive MongoId where
  | oid (hex : String)
  | str (s : String)
deriving DecidableEq, Repr

/-- `toString` on an id value, as used by the delete route's
`item.userId.toString() !== req.user._id.toString()` comparison. -/
def MongoId.toStr : MongoId → String
  | .oid h => h
  | .str s => s

/-- `ObjectId.isValid(id)` for a string argument: a 24-character hex string.
(The same condition makes `new ObjectId(id)` succeed rather than throw.) -/
def isValidObjectId (s : String) : Bool :=
  s.data.length == 24 && s.data.all (fun c =>
    c.isDigit || ('a' ≤ c && c ≤ 'f') || ('A' ≤ c && c ≤ 'F'))

/-- JS truthiness of an optional string request-body field: absent (`none`),
or present but the empty string, is falsy. -/
def jsTruthy : Option String → Bool
  | none => false
  | some s => s != ""

/-- JS `v || d` for an optional string `v`: the default is used when `v` is
absent or the empty string. -/
def jsStrOr (v : Option String) (d : String) : String :=
  match v with
  | none => d
  | some s => if s = "" then d else s

/-- A user document, as created by `protect` / the firebase-login route. -/
structure User where
  _id : MongoId
  name : String
  email : String
  uid : String
  isAdmin : Bool
  photoURL : String
  createdAt : Int
  updatedAt : Int
deriving DecidableEq, Repr

/-- An item document, as created by `POST /inventory`.  `userId` is the
legacy owner-identifier field consulted by the delete route (`none` when the
document has no such field, e.g. items created by this server). -/
structure Item where
  _id : MongoId
  postType : String
  thumbnail : String
  title : String
  description : String
  category : String
  location : String
  date : Option Int
  contactName : String
  contactEmail : String
  status : String
  userId : Option String
  createdAt : Int
  updatedAt : Int
deriving DecidableEq, Repr

/-- The snapshot of an item's descriptive fields stored inside a recovery
(`originalItemData` in the route). -/
structure OrigItemData where
  title : String
  description : String
  category : String
  location : String
  date : Option Int
  thumbnail : String
deriving DecidableEq, Repr

/-- The snapshot of the original owner stored inside a recovery. -/
structure OwnerInfo where
  name : String
  email : String
deriving DecidableEq, Repr

/-- The claimant identity stored inside a recovery (`recoveredBy`). -/
structure ClaimantInfo where
  userId : MongoId
  name : String
  email : String
  photoURL : Option String
deriving DecidableEq, Repr

/-- A stored `recoveredDate` value: the recover route stores a parsed JS
`Date`, while `PATCH /recoveries/:id` stores the raw body value verbatim. -/
inductive StoredDate where
  | date (t : Option Int)
  | raw (s : String)
deriving DecidableEq, Repr

/-- A recovery document, as inserted by `POST /inventory/:id/recover`. -/
structure Recovery where
  _id : MongoId
  itemId : MongoId
  originalPostType : String
  originalItemData : OrigItemData
  originalOwner : OwnerInfo
  recoveredBy : ClaimantInfo
  recoveredLocation : String
  recoveredDate : StoredDate
  notes : String
  recoveryStatus : String
  createdAt : Int
deriving DecidableEq, Repr

/-- The database state: the three collections the core routes touch. -/
structure DB where
  users : List User
  items : List Item
  recoveries : List Recovery
deriving DecidableEq, Repr

/-- The error taxonomy of the routes.  Each constructor carries the literal
response message; the constructor records which spec-level error class the
response belongs to (ValidationError 400, Unauthenticated 401, Forbidden 403,
NotFound 404, Conflict 400-self-recovery). -/
inductive ApiError where
  | validationError (msg : String)
  | unauthenticated (msg : String)
  | forbidden (msg : String)
  | notFound (msg : String)
  | conflict (msg : String)
deriving DecidableEq, Repr

/-- `updateOne` on a list: rewrite the first entry satisfying `p` with `f`. -/
def updateFirst (p : α → Bool) (f : α → α) : List α → List α
  | [] => []
  | x :: xs => if p x then f x :: xs else x :: updateFirst p f xs

/-- The `$or` dual-identifier match used by the item routes: a stored `_id`
matches the URL id string either as a canonical ObjectId (when the string is
in canonical format) or as the literal string. -/
def idMatches (idStr : String) (stored : MongoId) : Bool :=
  if isValidObjectId idStr then stored == .oid idStr || stored == .str idStr
  else stored == .str idStr

/-- Item lookup with the `$or` dual-identifier query, as in
`GET /inventory/:id`, the recover route and the delete route. -/
def findItem (db : DB) (idStr : String) : Option Item :=
  db.items.find? (fun it => idMatches idStr it._id)

/-- Item lookup as done by `PATCH /inventory/:id`: first try the canonical
ObjectId form (when the string is valid), then fall back to the literal
string form. -/
def findItemPatch (db : DB) (idStr : String) : Option Item :=
  match (if isValidObjectId idStr then
          db.items.find? (fun it => it._id == .oid idStr)
        else none) with
  | some it => some it
  | none => db.items.find? (fun it => it._id == .str idStr)

/-- Leading- and trailing-whitespace removal on a character list (the
semantics of JS `String.prototype.trim`). -/
def trimChars (l : List Char) : List Char :=
  ((l.dropWhile Char.isWhitespace).reverse.dropWhile Char.isWhitespace).reverse

/-- The id clean-up at the top of `PATCH /inventory/:id`:
`id.split(":")[0].trim()` — the characters before the first `:`, trimmed. -/
def cleanId (raw : String) : String :=
  String.mk (trimChars (raw.data.takeWhile (fun c => c != ':')))

/-- Whether `p` is a prefix of `s` (JS `String.prototype.startsWith`). -/
def charsPrefixOf : List Char → List Char → Bool
  | [], _ => true
  | _ :: _, [] => false
  | a :: as, b :: bs => a == b && charsPrefixOf as bs

/-- `h.startsWith("Bearer ")` on the Authorization header. -/
def strStartsWith (s p : String) : Bool :=
  charsPrefixOf p.data s.data

/-- `h.split(" ")[1]`: the characters after the first space and before the
second, as used to extract the bearer token from the Authorization header. -/
def bearerToken (h : String) : String :=
  String.mk (((h.data.dropWhile (fun c => c != ' ')).drop 1).takeWhile
    (fun c => c != ' '))

/-! ## Identity Resolver (`protect` middleware) -/

/-- The claims of a verified Firebase id token, as read by `protect`. -/
structure FirebaseClaims where
  email : String
  name : Option String
  uid : String
  picture : Option String
deriving DecidableEq, Repr

/-- The payload of a verified local session JWT: `{userId}` or `{uid}`. -/
structure JwtClaims where
  userId : Option String
  uid : Option String
deriving DecidableEq, Repr

/-- The `protect` middleware.  `firebaseVerify` models
`admin.auth().verifyIdToken` (`none` = verification throws) and `jwtVerify`
models `jwt.verify` with the process secret (`none` = invalid signature or
expired).  `authHeader` is the raw `Authorization` header, `cookieToken` the
`token` cookie.  `newUserId` is the `_id` MongoDB would assign on the
auto-provisioning insert.  On success the resolved principal and the
(possibly extended) database are returned; an error is the early 401/404
response.

`firebaseStep` is step 1 of the middleware: when a `Bearer` Authorization
header is present and the Firebase token verifies, resolve (or
auto-provision) the user by email; `none` means fall through to the local
session credential. -/
def firebaseStep (firebaseVerify : String → Option FirebaseClaims)
    (now : Int) (newUserId : MongoId) (authHeader : Option String)
    (db : DB) : Option (User × DB) :=
  match authHeader with
  | some h =>
    if strStartsWith h "Bearer " then
      match firebaseVerify (bearerToken h) with
      | some decoded =>
        match db.users.find? (fun u => u.email == decoded.email) with
        | some u => some (u, db)
        | none =>
          let newUser : User :=
            { _id := newUserId
              name := jsStrOr decoded.name "Firebase User"
              email := decoded.email
              uid := decoded.uid
              isAdmin := false
              photoURL := jsStrOr decoded.picture ""
              createdAt := now
              updatedAt := now }
          some (newUser, { db with users := db.users ++ [newUser] })
      | none => none
    else none
  | none => none

def protect (firebaseVerify : String → Option FirebaseClaims)
    (jwtVerify : String → Option JwtClaims) (now : Int) (newUserId : MongoId)
    (authHeader : Option String) (cookieToken : Option String) (db : DB) :
    Except ApiError (User × DB) :=
  match firebaseStep firebaseVerify now newUserId authHeader db with
  | some (u, db') => .ok (u, db')
  | none =>
    match cookieToken with
    | none => .error (.unauthenticated "Not authorized, no token")
    | some tok =>
      match jwtVerify tok with
      | none => .error (.unauthenticated "Not authorized, token failed")
      | some decoded =>
        match decoded.userId with
        | some uidStr =>
          -- `new ObjectId(decoded.userId)` throws on a malformed id; the
          -- surrounding catch turns that into the 401 response.
          if isValidObjectId uidStr then
            match db.users.find? (fun u => u._id == .oid uidStr) with
            | some u => .ok (u, db)
            | none => .error (.notFound "User not found")
          else .error (.unauthenticated "Not authorized, token failed")
        | none =>
          match decoded.uid with
          | some fuid =>
            match db.users.find? (fun u => u.uid == fuid) with
            | some u => .ok (u, db)
            | none => .error (.notFound "User not found")
          | none => .error (.notFound "User not found")

/-! ## Item Store: create and update -/

/-- The request body of `POST /inventory` (the fields the route reads). -/
structure CreateBody where
  postType : Option String := none
  thumbnail : Option String := none
  title : Option String := none
  description : Option String := none
  category : Option String := none
  location : Option String := none
  date : Option String := none
deriving DecidableEq, Repr

/-- `validateItemData`: postType ∈ {lost, found}; thumbnail, title, category,
location truthy strings; date present and parseable. -/
def validateItemData (parse : String → Option Int) (b : CreateBody) : Bool :=
  jsTruthy b.postType &&
  (b.postType == some "lost" || b.postType == some "found") &&
  jsTruthy b.thumbnail && jsTruthy b.title && jsTruthy b.category &&
  jsTruthy b.location && jsTruthy b.date &&
  (parse (b.date.getD "")).isSome

/-- `POST /inventory`: validate, then insert an item owned by the principal
(`contactName`/`contactEmail` from the user, status `not-recovered`).
`newItemId` is the `_id` assigned by the insert. -/
def createItem (parse : String → Option Int) (now : Int) (user : User)
    (b : CreateBody) (newItemId : MongoId) (db : DB) :
    Except ApiError (DB × MongoId) :=
  if !(validateItemData parse b) then
    .error (.validationError "Invalid item data")
  else
    let it : Item :=
      { _id := newItemId
        postType := b.postType.getD ""
        thumbnail := b.thumbnail.getD ""
        title := b.title.getD ""
        description := b.description.getD ""
        category := b.category.getD ""
        location := b.location.getD ""
        date := parse (b.date.getD "")
        contactName := user.name
        contactEmail := user.email
        status := "not-recovered"
        userId := none
        createdAt := now
        updatedAt := now }
    .ok ({ db with items := db.items ++ [it] }, newItemId)

/-- The request body of `PATCH /inventory/:id`: the eight allowlisted fields,
plus any other keys the client submitted (`extra`), which the route never
reads. -/
structure UpdateBody where
  postType : Option String := none
  title : Option String := none
  description : Option String := none
  category : Option String := none
  location : Option String := none
  date : Option String := none
  thumbnail : Option String := none
  status : Option String := none
  extra : List (String × String) := []
deriving DecidableEq, Repr

/-- The `$set` document built by `PATCH /inventory/:id`, applied to an item:
each allowlisted field present in the body is written (`date` through
`new Date(...)`), every absent field keeps its stored value, and
`updatedAt` is always refreshed. -/
def applyItemUpdate (parse : String → Option Int) (now : Int)
    (b : UpdateBody) (it : Item) : Item :=
  { it with
    postType := b.postType.getD it.postType
    title := b.title.getD it.title
    description := b.description.getD it.description
    category := b.category.getD it.category
    location := b.location.getD it.location
    date := match b.date with | some v => parse v | none => it.date
    thumbnail := b.thumbnail.getD it.thumbnail
    status := b.status.getD it.status
    updatedAt := now }

/-- `PATCH /inventory/:id`: clean the id, look the item up (ObjectId first,
then literal string), apply the ownership check — skipped when
`NODE_ENV === "development"` — and `$set` the allowlisted fields.  Returns
the new state and the `modifiedCount` of the `updateOne`. -/
def updateItem (parse : String → Option Int) (env : String) (now : Int)
    (user : User) (rawId : String) (b : UpdateBody) (db : DB) :
    Except ApiError (DB × Nat) :=
  match findItemPatch db (cleanId rawId) with
  | none => .error (.notFound "Item not found")
  | some item =>
    if env != "development" && item.contactEmail != user.email then
      .error (.forbidden "Not authorized")
    else
      .ok ({ db with
              items := updateFirst (fun it => it._id == item._id)
                (applyItemUpdate parse now b) db.items },
           if applyItemUpdate parse now b item == item then 0 else 1)

/-! ## Recovery Transaction Coordinator -/

/-- The request body of `POST /inventory/:id/recover` (the fields the route
actually uses; the additional destructured payload fields are never read). -/
structure RecoverBody where
  recoveredLocation : Option String := none
  recoveredDate : Option String := none
  notes : Option String := none
deriving DecidableEq, Repr

/-- `POST /inventory/:id/recover`: dual-identifier lookup, required-field
check, self-recovery check, date parse, then — in one transaction — insert
the recovery snapshot and set the item's status to `recovered`.
`newRecId` is the `_id` assigned to the inserted recovery. -/
def recover (parse : String → Option Int) (now : Int) (user : User)
    (idStr : String) (b : RecoverBody) (newRecId : MongoId) (db : DB) :
    Except ApiError (DB × Recovery) :=
  match findItem db idStr with
  | none => .error (.notFound "Item not found")
  | some item =>
    if !(jsTruthy b.recoveredLocation) || !(jsTruthy b.recoveredDate) then
      .error (.validationError "Missing required fields")
    else if user.email == item.contactEmail then
      .error (.conflict "You cannot recover your own item")
    else
      match parse (b.recoveredDate.getD "") with
      | none => .error (.validationError "Invalid recovery date")
      | some d =>
        let recoveryData : Recovery :=
          { _id := newRecId
            itemId := item._id
            originalPostType := item.postType
            originalItemData :=
              { title := item.title
                description := item.description
                category := item.category
                location := item.location
                date := item.date
                thumbnail := item.thumbnail }
            originalOwner :=
              { name := item.contactName, email := item.contactEmail }
            recoveredBy :=
              { userId := user._id
                name := user.name
                email := user.email
                photoURL := if user.photoURL = "" then none
                            else some user.photoURL }
            recoveredLocation := b.recoveredLocation.getD ""
            recoveredDate := .date (some d)
            notes := b.notes.getD ""
            recoveryStatus := "pending"
            createdAt := now }
        .ok ({ db with
                recoveries := db.recoveries ++ [recoveryData]
                items := updateFirst (fun it => it._id == item._id)
                  (fun it => { it with status := "recovered", updatedAt := now })
                  db.items },
             recoveryData)

/-- `DELETE /inventory/:id`: dual-identifier lookup, ownership check (legacy
`userId` match or `contactEmail` match), then — in one transaction — delete
the item and every recovery referencing it. -/
def deleteItem (user : User) (idStr : String) (db : DB) :
    Except ApiError DB :=
  match findItem db idStr with
  | none => .error (.notFound "Item not found")
  | some item =>
    if (match item.userId with
        | none => true
        | some uid => uid != user._id.toStr) &&
       item.contactEmail != user.email then
      .error (.forbidden "Not authorized to delete this item")
    else
      .ok { db with
            items := db.items.eraseP (fun it => it._id == item._id)
            recoveries := db.recoveries.filter
              (fun r => !(r.itemId == item._id)) }

/-- The request body of `PATCH /recoveries/:id`: the four mutable fields and
any other keys (`extra`), which the allowlist filter drops. -/
structure RecoveryUpdateBody where
  recoveryStatus : Option String := none
  notes : Option String := none
  recoveredLocation : Option String := none
  recoveredDate : Option String := none
  extra : List (String × String) := []
deriving DecidableEq, Repr

/-- The filtered `$set` document of `PATCH /recoveries/:id`, applied to a
recovery: each of the four allowlisted fields present in the body is
written, every other field keeps its stored value.  `recoveredDate` is
stored verbatim (no date conversion). -/
def applyRecoveryUpdate (b : RecoveryUpdateBody) (r : Recovery) : Recovery :=
  { r with
    recoveryStatus := b.recoveryStatus.getD r.recoveryStatus
    notes := b.notes.getD r.notes
    recoveredLocation := b.recoveredLocation.getD r.recoveredLocation
    recoveredDate := match b.recoveredDate with
      | some v => .raw v | none => r.recoveredDate }

/-- Whether the allowlist-filtered update document is non-empty. -/
def hasRecoveryUpdateField (b : RecoveryUpdateBody) : Bool :=
  b.recoveryStatus.isSome || b.notes.isSome ||
  b.recoveredLocation.isSome || b.recoveredDate.isSome

/-- `PATCH /recoveries/:id`: reject a non-canonical id, reject an empty
filtered field set, update the recovery matched by `new ObjectId(id)`
(404 when none matches), and return the updated document. -/
def updateRecovery ( _user : User) (idStr : String)
    (b : RecoveryUpdateBody) (db : DB) : Except ApiError (DB × Recovery) :=
  if !(isValidObjectId idStr) then
    .error (.validationError "Invalid recovery ID")
  else if !(hasRecoveryUpdateField b) then
    .error (.validationError "No valid fields to update")
  else
    match db.recoveries.find? (fun r => r._id == .oid idStr) with
    | none => .error (.notFound "Recovery not found")
    | some r0 =>
      .ok ({ db with
              recoveries := updateFirst (fun r => r._id == .oid idStr)
                (applyRecoveryUpdate b) db.recoveries },
           applyRecoveryUpdate b r0)

/-! ## The status/recovery invariant -/

/-- The cross-collection invariant of spec §3: an item's status is
`recovered` exactly when a committed recovery referencing it exists. -/
def statusRecoveryInvariant (db : DB) : Prop :=
  ∀ it ∈ db.items,
    (it.status = "recovered" ↔ ∃ r ∈ db.recoveries, r.itemId = it._id)

instance (db : DB) : Decidable (statusRecoveryInvariant db) := by
  unfold statusRecoveryInvariant
  infer_instance

/-- Item `_id`s are pairwise distinct (MongoDB's `_id` uniqueness, per
collection). -/
def distinctItemIds (db : DB) : Prop :=
  db.items.Pairwise (fun a b => a._id ≠ b._id)

instance (db : DB) : Decidable (distinctItemIds db) := by
  unfold distinctItemIds
  infer_instance

/-! ## Concrete sample data (used by witnesses and counterexamples) -/

/-- A sample stand-in for the JS date parser: rejects exactly the string
`not-a-date`. -/
def sampleParse (s : String) : Option Int :=
  if s = "not-a-date" then none else some 42

/-- Sample owner (user A). -/
def userA : User :=
  { _id := .oid "aaaaaaaaaaaaaaaaaaaaaaaa"
    name := "A"
    email := "a@x.com"
    uid := "uidA"
    isAdmin := false
    photoURL := ""
    createdAt := 0
    updatedAt := 0 }

/-- Sample claimant (user B). -/
def userB : User :=
  { _id := .oid "bbbbbbbbbbbbbbbbbbbbbbbb"
    name := "B"
    email := "b@x.com"
    uid := "uidB"
    isAdmin := false
    photoURL := "pic"
    createdAt := 0
    updatedAt := 0 }

/-- A sample third user (user C, email c@x.com). -/
def userC : User :=
  { _id := .oid "cccccccccccccccccccccccc"
    name := "C"
    email := "c@x.com"
    uid := "uidC"
    isAdmin := false
    photoURL := ""
    createdAt := 0
    updatedAt := 0 }

/-- A sample not-yet-recovered item owned by user A. -/
def itemW : Item :=
  { _id := .oid "dddddddddddddddddddddddd"
    postType := "lost"
    thumbnail := "u"
    title := "Wallet"
    description := ""
    category := "Accessories"
    location := "Park"
    date := some 1
    contactName := "A"
    contactEmail := "a@x.com"
    status := "not-recovered"
    userId := none
    createdAt := 0
    updatedAt := 0 }

/-- A sample recovery of `itemR` by user B. -/
def recR : Recovery :=
  { _id := .oid "ffffffffffffffffffffffff"
    itemId := .oid "eeeeeeeeeeeeeeeeeeeeeeee"
    originalPostType := "lost"
    originalItemData :=
      { title := "Phone"
        description := ""
        category := "Electronics"
        location := "Cafe"
        date := some 2
        thumbnail := "v" }
    originalOwner := { name := "A", email := "a@x.com" }
    recoveredBy :=
      { userId := .oid "bbbbbbbbbbbbbbbbbbbbbbbb"
        name := "B"
        email := "b@x.com"
        photoURL := some "pic" }
    recoveredLocation := "Station"
    recoveredDate := .date (some 3)
    notes := ""
    recoveryStatus := "pending"
    createdAt := 3 }

/-- A sample already-recovered item owned by user A (recovered by B via
`recR`). -/
def itemR : Item :=
  { _id := .oid "eeeeeeeeeeeeeeeeeeeeeeee"
    postType := "lost"
    thumbnail := "v"
    title := "Phone"
    description := ""
    category := "Electronics"
    location := "Cafe"
    date := some 2
    contactName := "A"
    contactEmail := "a@x.com"
    status := "recovered"
    userId := none
    createdAt := 0
    updatedAt := 3 }

/-- The main sample state: one unrecovered item, one recovered item with its
recovery record. -/
def dbMain : DB :=
  { users := [userA, userB, userC]
    items := [itemW, itemR]
    recoveries := [recR] }

/-- A sample state holding one legacy recovery stored under a literal
string `_id`. -/
def dbLegacyRec : DB :=
  { users := [userA, userB]
    items := []
    recoveries := [{ recR with _id := .str "legacy-rec-1" }] }

/-- A sample external verifier that rejects every Firebase token. -/
def sampleFv : String → Option FirebaseClaims := fun _ => none

/-- A sample session verifier accepting exactly the token `tok`, whose
claim references the external subject id `ghost`. -/
def sampleJv : String → Option JwtClaims := fun t =>
  if t = "tok" then some { userId := none, uid := some "ghost" } else none

/-- Whether a route result is the self-recovery `Conflict` rejection. -/
def resultIsConflict {α : Type} : Except ApiError α → Bool
  | .error (.conflict _) => true
  | _ => false

/-- Whether a route result is a `NotFound` rejection. -/
def resultIsNotFound {α : Type} : Except ApiError α → Bool
  | .error (.notFound _) => true
  | _ => false

/-! ## Helper lemmas about `updateFirst` and `List.eraseP` -/

theorem mem_updateFirst {α : Type} {p : α → Bool} {f : α → α} {l : List α}
    {x : α} (hx : x ∈ updateFirst p f l) :
    x ∈ l ∨ ∃ y ∈ l, p y = true ∧ x = f y := by
  induction l with
  | nil => simp [updateFirst] at hx
  | cons a as ih =>
    simp only [updateFirst] at hx
    by_cases hpa : p a = true
    · rw [if_pos hpa] at hx
      rcases List.mem_cons.mp hx with h | h
      · exact Or.inr ⟨a, List.mem_cons_self a as, hpa, h⟩
      · exact Or.inl (List.mem_cons_of_mem a h)
    · rw [if_neg hpa] at hx
      rcases List.mem_cons.mp hx with h | h
      · exact Or.inl (h ▸ List.mem_cons_self a as)
      · rcases ih h with h' | ⟨y, hy, hpy, hxy⟩
        · exact Or.inl (List.mem_cons_of_mem a h')
        · exact Or.inr ⟨y, List.mem_cons_of_mem a hy, hpy, hxy⟩

theorem mem_updateFirst_of_neg {α : Type} {p : α → Bool} {f : α → α}
    {l : List α} {x : α} (hx : x ∈ l) (hpx : p x = false) :
    x ∈ updateFirst p f l := by
  induction l with
  | nil => simp at hx
  | cons a as ih =>
    simp only [updateFirst]
    rcases List.mem_cons.mp hx with h | h
    · subst h
      rw [if_neg (by simp [hpx])]
      exact List.mem_cons_self x (updateFirst p f as)
    · by_cases hpa : p a = true
      · rw [if_pos hpa]
        exact List.mem_cons_of_mem _ h
      · rw [if_neg hpa]
        exact List.mem_cons_of_mem _ (ih h)

theorem map_updateFirst {α β : Type} {p : α → Bool} {f : α → α} {g : α → β}
    (hg : ∀ a, g (f a) = g a) (l : List α) :
    (updateFirst p f l).map g = l.map g := by
  induction l with
  | nil => rfl
  | cons a as ih =>
    simp only [updateFirst]
    by_cases hpa : p a = true
    · rw [if_pos hpa]
      simp [hg]
    · rw [if_neg hpa]
      simp [ih]

theorem updateFirst_congr {α : Type} {p : α → Bool} {f g : α → α}
    (h : ∀ a, f a = g a) (l : List α) :
    updateFirst p f l = updateFirst p g l := by
  induction l with
  | nil => rfl
  | cons a as ih =>
    simp only [updateFirst]
    by_cases hpa : p a = true
    · rw [if_pos hpa, if_pos hpa, h]
    · rw [if_neg hpa, if_neg hpa, ih]

/-- Membership in `updateFirst` on a list whose keys are pairwise distinct:
every entry of the result either is the image of the unique matched entry
(and carries the key `i`), or is an untouched entry whose key differs
from `i`. -/
theorem mem_updateFirst_key {α β : Type} {k : α → β} {p : α → Bool}
    {f : α → α} {i : β} {l : List α} {x : α}
    (hdist : l.Pairwise (fun a b => k a ≠ k b))
    (hf : ∀ a, k (f a) = k a)
    (hq : ∀ a, p a = true ↔ k a = i)
    (hx : x ∈ updateFirst p f l) :
    (k x = i ∧ ∃ y ∈ l, k y = i ∧ x = f y) ∨ (k x ≠ i ∧ x ∈ l) := by
  induction l with
  | nil => simp [updateFirst] at hx
  | cons a as ih =>
    simp only [updateFirst] at hx
    rcases List.pairwise_cons.mp hdist with ⟨ha, has⟩
    by_cases hpa : p a = true
    · rw [if_pos hpa] at hx
      have hka : k a = i := (hq a).mp hpa
      rcases List.mem_cons.mp hx with h | h
      · exact Or.inl ⟨h ▸ (hf a).trans hka,
          a, List.mem_cons_self a as, hka, h⟩
      · exact Or.inr ⟨fun hki => (ha x h) (hka.trans hki.symm),
          List.mem_cons_of_mem a h⟩
    · rw [if_neg hpa] at hx
      have hka : k a ≠ i := fun hk => hpa ((hq a).mpr hk)
      rcases List.mem_cons.mp hx with h | h
      · exact Or.inr ⟨h ▸ hka, h ▸ List.mem_cons_self a as⟩
      · rcases ih has h with ⟨hk, y, hy, hky, hxy⟩ | ⟨hk, hmem⟩
        · exact Or.inl ⟨hk, y, List.mem_cons_of_mem a hy, hky, hxy⟩
        · exact Or.inr ⟨hk, List.mem_cons_of_mem a hmem⟩

/-- After `eraseP` on a list whose keys are pairwise distinct, no entry with
the erased key remains (the predicate selects exactly the key `i`). -/
theorem eraseP_key_none {α β : Type} {k : α → β} {p : α → Bool} {i : β}
    {l : List α}
    (hdist : l.Pairwise (fun a b => k a ≠ k b))
    (hq : ∀ a, p a = true ↔ k a = i) :
    ∀ x ∈ l.eraseP p, k x ≠ i := by
  induction l with
  | nil => simp
  | cons a as ih =>
    intro x hx
    rcases List.pairwise_cons.mp hdist with ⟨ha, has⟩
    rw [List.eraseP_cons] at hx
    by_cases hpa : p a = true
    · rw [hpa] at hx
      simp only [cond_true] at hx
      have hka : k a = i := (hq a).mp hpa
      exact fun hki => (ha x hx) (hka.trans hki.symm)
    · rw [Bool.of_not_eq_true hpa] at hx
      simp only [cond_false] at hx
      rcases List.mem_cons.mp hx with h | h
      · exact h ▸ fun hk => hpa ((hq a).mpr hk)
      · exact ih has x h

/-! ## Claim theorems -/

/-- C9: for every identifier that is not in canonical ObjectId format,
`updateRecovery` fails `ValidationError` ("Invalid recovery ID") before any
existence check — for every state, hence never `NotFound`; and the
dual-identifier shim is not applied to recoveries, so a recovery stored
under a legacy string id is never touched by this operation: it survives
unchanged in the post-state of every successful call. -/
theorem updateRecovery_invalid_id_and_legacy_unreachable :
    (∀ (u : User) (idStr : String) (b : RecoveryUpdateBody) (db : DB),
      isValidObjectId idStr = false →
      updateRecovery u idStr b db =
        .error (.validationError "Invalid recovery ID")) ∧
    (∀ (u : User) (idStr : String) (b : RecoveryUpdateBody) (db db' : DB)
        (rec : Recovery),
      updateRecovery u idStr b db = .ok (db', rec) →
      ∀ r ∈ db.recoveries, (∃ s, r._id = MongoId.str s) →
        r ∈ db'.recoveries) := by
  constructor
  · intro u idStr b db hbad
    unfold updateRecovery
    rw [hbad]
    rfl
  · intro u idStr b db db' rec hok r hr ⟨s, hs⟩
    unfold updateRecovery at hok
    split at hok
    · exact Except.noConfusion hok
    · split at hok
      · exact Except.noConfusion hok
      · split at hok
        · exact Except.noConfusion hok
        · injection hok with h
          injection h with h1 h2
          subst h1
          refine mem_updateFirst_of_neg hr ?_
          rw [hs]
          exact beq_eq_false_iff_ne.mpr (fun h => MongoId.noConfusion h)

/-- C9 witness: an invalid-format id is rejected with the exact
ValidationError on a state that does contain recoveries, and a successful
update of a canonical-id recovery leaves a legacy-id recovery untouched. -/
theorem updateRecovery_invalid_id_witness :
    isValidObjectId "abc" = false ∧
    updateRecovery userB "abc" { notes := some "n" } dbMain =
      .error (.validationError "Invalid recovery ID") := by
  refine ⟨by decide, ?_⟩
  exact updateRecovery_invalid_id_and_legacy_unreachable.1 userB "abc"
    { notes := some "n" } dbMain (by decide)

/-- C10: an authorized `PATCH /inventory/:id` whose body contains no
allowlisted field at all still succeeds, and the stored item is rewritten
with a fresh `updatedAt` timestamp (all other fields unchanged). -/
theorem updateItem_empty_body_succeeds
    (parse : String → Option Int) (env : String) (now : Int) (user : User)
    (rawId : String) (b : UpdateBody) (db : DB) (item : Item)
    (hfind : findItemPatch db (cleanId rawId) = some item)
    (hown : item.contactEmail = user.email)
    (h1 : b.postType = none) (h2 : b.title = none) (h3 : b.description = none)
    (h4 : b.category = none) (h5 : b.location = none) (h6 : b.date = none)
    (h7 : b.thumbnail = none) (h8 : b.status = none) :
    ∃ cnt, updateItem parse env now user rawId b db =
      .ok ({ db with
              items := updateFirst (fun it => it._id == item._id)
                (fun it => { it with updatedAt := now }) db.items },
           cnt) := by
  have happly : ∀ it : Item,
      applyItemUpdate parse now b it = { it with updatedAt := now } := by
    intro it
    simp [applyItemUpdate, h1, h2, h3, h4, h5, h6, h7, h8]
  refine ⟨if applyItemUpdate parse now b item == item then 0 else 1, ?_⟩
  unfold updateItem
  rw [hfind]
  dsimp only
  rw [if_neg (by rw [hown]; simp)]
  rw [updateFirst_congr happly]


/-- C8: `recover` never inspects the item's current status: on an item that
is already `recovered`, a further claim by a different principal with valid
claim fields succeeds and appends one more recovery referencing the item. -/
theorem recover_ignores_item_status
    (parse : String → Option Int) (now : Int) (user : User) (idStr : String)
    (b : RecoverBody) (newRecId : MongoId) (db : DB) (item : Item)
    (hfind : findItem db idStr = some item)
    (hstatus : item.status = "recovered")
    (hne : user.email ≠ item.contactEmail)
    (hloc : jsTruthy b.recoveredLocation = true)
    (hdate : jsTruthy b.recoveredDate = true)
    (hparse : (parse (b.recoveredDate.getD "")).isSome = true) :
    ∃ db' rec, recover parse now user idStr b newRecId db = .ok (db', rec) ∧
      rec.itemId = item._id ∧
      db'.recoveries = db.recoveries ++ [rec] ∧
      db'.recoveries.countP (fun r => r.itemId == item._id) =
        db.recoveries.countP (fun r => r.itemId == item._id) + 1 := by
  unfold recover
  rw [hfind]
  dsimp only
  rw [if_neg (by simp [hloc, hdate])]
  rw [if_neg (by simp [hne])]
  cases hp : parse (b.recoveredDate.getD "") with
  | none => rw [hp] at hparse; exact absurd hparse (by simp)
  | some d =>
    refine ⟨_, _, rfl, rfl, rfl, ?_⟩
    simp [List.countP_append, List.countP_cons]

/-- C8 witness: user C records a recovery of the already-recovered `itemR`
(previously claimed by user B via `recR`); the call succeeds and the item
now has two recoveries referencing it. -/
theorem recover_ignores_item_status_witness :
    findItem dbMain "eeeeeeeeeeeeeeeeeeeeeeee" = some itemR ∧
    itemR.status = "recovered" ∧
    userC.email ≠ itemR.contactEmail ∧
    ∃ db' rec,
      recover sampleParse 7 userC "eeeeeeeeeeeeeeeeeeeeeeee"
          { recoveredLocation := some "Library"
            recoveredDate := some "2024-01-05" }
          (.oid "abababababababababababab") dbMain = .ok (db', rec) ∧
      rec.itemId = itemR._id ∧
      db'.recoveries = dbMain.recoveries ++ [rec] ∧
      db'.recoveries.countP (fun r => r.itemId == itemR._id) =
        dbMain.recoveries.countP (fun r => r.itemId == itemR._id) + 1 :=
  ⟨by decide, rfl, by decide,
    recover_ignores_item_status sampleParse 7 userC "eeeeeeeeeeeeeeeeeeeeeeee"
      { recoveredLocation := some "Library", recoveredDate := some "2024-01-05" }
      (.oid "abababababababababababab") dbMain itemR
      (by decide) rfl (by decide) (by decide) (by decide) (by decide)⟩

/-- C2 counterexample: a self-recovery attempt (user A on their own item)
with `recoveredLocation` absent is rejected with the missing-fields
`ValidationError`, not with the self-recovery `Conflict` the claim
requires for every value of the other claim fields. -/
theorem recover_self_missing_field_counterexample :
    userA.email = itemW.contactEmail ∧
    recover sampleParse 5 userA "dddddddddddddddddddddddd"
        { recoveredDate := some "2024-01-05" }
        (.oid "9999999999999999999999aa") dbMain =
      .error (.validationError "Missing required fields") ∧
    resultIsConflict (recover sampleParse 5 userA "dddddddddddddddddddddddd"
        { recoveredDate := some "2024-01-05" }
        (.oid "9999999999999999999999aa") dbMain) = false :=
  ⟨rfl, rfl, rfl⟩

/-- C2 amended: a self-recovery attempt (principal email equals the item's
contact email) never succeeds and never creates a recovery: it fails
`Conflict` whenever `recoveredLocation` and `recoveredDate` are both truthy
— in particular even when `recoveredDate` is unparseable — and it fails
the missing-fields `ValidationError` (before the self-recovery check) when
either field is absent or empty. -/
theorem recover_self_rejection
    (parse : String → Option Int) (now : Int) (user : User) (idStr : String)
    (b : RecoverBody) (newRecId : MongoId) (db : DB) (item : Item)
    (hfind : findItem db idStr = some item)
    (hself : user.email = item.contactEmail) :
    (jsTruthy b.recoveredLocation = true → jsTruthy b.recoveredDate = true →
      recover parse now user idStr b newRecId db =
        .error (.conflict "You cannot recover your own item")) ∧
    (jsTruthy b.recoveredLocation = false ∨ jsTruthy b.recoveredDate = false →
      recover parse now user idStr b newRecId db =
        .error (.validationError "Missing required fields")) := by
  constructor
  · intro hloc hdate
    unfold recover
    rw [hfind]
    dsimp only
    rw [if_neg (by simp [hloc, hdate])]
    rw [if_pos (by simp [hself])]
  · intro hmiss
    unfold recover
    rw [hfind]
    dsimp only
    rw [if_pos ?_]
    rcases hmiss with h | h
    · simp [h]
    · simp [h]

/-- C2 witness: user A self-recovering their own item with both claim
fields present but an unparseable `recoveredDate` is rejected with the
`Conflict` error (the self-recovery check fires before date parsing), and
with `recoveredLocation` absent the same call fails the missing-fields
`ValidationError`. -/
theorem recover_self_rejection_witness :
    userA.email = itemW.contactEmail ∧
    recover sampleParse 5 userA "dddddddddddddddddddddddd"
        { recoveredLocation := some "Park", recoveredDate := some "not-a-date" }
        (.oid "9999999999999999999999aa") dbMain =
      .error (.conflict "You cannot recover your own item") ∧
    recover sampleParse 5 userA "dddddddddddddddddddddddd"
        { recoveredLocation := none, recoveredDate := some "2024-01-05" }
        (.oid "9999999999999999999999aa") dbMain =
      .error (.validationError "Missing required fields") :=
  ⟨rfl,
    (recover_self_rejection sampleParse 5 userA "dddddddddddddddddddddddd"
      { recoveredLocation := some "Park", recoveredDate := some "not-a-date" }
      (.oid "9999999999999999999999aa") dbMain itemW (by decide) rfl).1
      (by decide) (by decide),
    (recover_self_rejection sampleParse 5 userA "dddddddddddddddddddddddd"
      { recoveredLocation := none, recoveredDate := some "2024-01-05" }
      (.oid "9999999999999999999999aa") dbMain itemW (by decide) rfl).2
      (Or.inl (by decide))⟩

/-- C3 counterexample: with `NODE_ENV=development` the ownership check of
`PATCH /inventory/:id` is skipped: user B, who is not the owner of `itemW`,
updates it successfully — an environment-dependent bypass the claim rules
out. -/
theorem updateItem_dev_bypass_counterexample :
    userB.email ≠ itemW.contactEmail ∧
    (updateItem sampleParse "development" 9 userB "dddddddddddddddddddddddd"
      { title := some "Taken" } dbMain).isOk = true :=
  ⟨by decide, by decide⟩

/-- C3 amended: `update` fails `Forbidden` whenever the principal's email
differs from the item's contact email AND the environment is not
`development` (in development the ownership check is skipped entirely);
past that check it always succeeds.  `deleteItem` succeeds past
authorization exactly when the principal's email matches the contact email
or the principal's identifier matches the legacy `userId` field —
unconditionally, with no environment dependence. -/
theorem ownership_guard :
    (∀ (parse : String → Option Int) (env : String) (now : Int) (user : User)
        (rawId : String) (b : UpdateBody) (db : DB) (item : Item),
      findItemPatch db (cleanId rawId) = some item →
      env ≠ "development" → item.contactEmail ≠ user.email →
      updateItem parse env now user rawId b db =
        .error (.forbidden "Not authorized")) ∧
    (∀ (parse : String → Option Int) (env : String) (now : Int) (user : User)
        (rawId : String) (b : UpdateBody) (db : DB) (item : Item),
      findItemPatch db (cleanId rawId) = some item →
      item.contactEmail = user.email →
      (updateItem parse env now user rawId b db).isOk = true) ∧
    (∀ (parse : String → Option Int) (now : Int) (user : User)
        (rawId : String) (b : UpdateBody) (db : DB) (item : Item),
      findItemPatch db (cleanId rawId) = some item →
      (updateItem parse "development" now user rawId b db).isOk = true) ∧
    (∀ (user : User) (idStr : String) (db : DB) (item : Item),
      findItem db idStr = some item →
      ((deleteItem user idStr db).isOk = true ↔
        (item.contactEmail = user.email ∨
          ∃ uid, item.userId = some uid ∧ uid = user._id.toStr))) := by
  refine ⟨?_, ?_, ?_, ?_⟩
  · intro parse env now user rawId b db item hfind henv hne
    unfold updateItem
    rw [hfind]
    dsimp only
    have hc : (env != "development" && item.contactEmail != user.email)
        = true := by
      simp only [Bool.and_eq_true, bne_iff_ne, ne_eq]
      exact ⟨henv, hne⟩
    rw [if_pos hc]
  · intro parse env now user rawId b db item hfind hown
    unfold updateItem
    rw [hfind]
    dsimp only
    rw [if_neg (by rw [hown]; simp)]
    rfl
  · intro parse now user rawId b db item hfind
    unfold updateItem
    rw [hfind]
    dsimp only
    rw [if_neg (by simp)]
    rfl
  · intro user idStr db item hfind
    unfold deleteItem
    rw [hfind]
    dsimp only
    rcases hmu : item.userId with _ | uid
    · by_cases he : item.contactEmail = user.email
      · rw [if_neg (by rw [he]; simp)]
        simp [he, Except.isOk, Except.toBool]
      · have hc : (true && item.contactEmail != user.email) = true := by
          simp only [Bool.true_and, bne_iff_ne, ne_eq]
          exact he
        rw [if_pos hc]
        simp [he, Except.isOk, Except.toBool]
    · by_cases hu : uid = user._id.toStr
      · rw [if_neg (by simp [hu])]
        simp [hu, Except.isOk, Except.toBool]
      · by_cases he : item.contactEmail = user.email
        · rw [if_neg (by rw [he]; simp)]
          simp [he, Except.isOk, Except.toBool]
        · have hc : ((uid != user._id.toStr) &&
              item.contactEmail != user.email) = true := by
            simp only [Bool.and_eq_true, bne_iff_ne, ne_eq]
            exact ⟨hu, he⟩
          rw [if_pos hc]
          simp [he, hu, Except.isOk, Except.toBool]

/-- C3 witness: outside development user B cannot update A's item
(Forbidden); the owner A can; user C with matching legacy `userId` can
delete an item whose contact email is not theirs. -/
theorem ownership_guard_witness :
    findItemPatch dbMain (cleanId "dddddddddddddddddddddddd") = some itemW ∧
    itemW.contactEmail ≠ userB.email ∧
    updateItem sampleParse "production" 9 userB "dddddddddddddddddddddddd"
        { title := some "Taken" } dbMain =
      .error (.forbidden "Not authorized") ∧
    ((deleteItem userC "dddddddddddddddddddddddd"
        { dbMain with
            items := [{ itemW with
                          userId := some "cccccccccccccccccccccccc" }] }).isOk
      ↔ True) :=
  ⟨by decide, by decide,
    ownership_guard.1 sampleParse "production" 9 userB
      "dddddddddddddddddddddddd" { title := some "Taken" } dbMain itemW
      (by decide) (by decide) (by decide),
    by
      rw [ownership_guard.2.2.2 userC "dddddddddddddddddddddddd"
        { dbMain with
            items := [{ itemW with userId := some "cccccccccccccccccccccccc" }] }
        { itemW with userId := some "cccccccccccccccccccccccc" } (by decide)]
      simp [itemW, userC, MongoId.toStr]⟩

/-- C10 witness: a concrete authorized update with an empty body (only an
unknown key) succeeds and refreshes `updatedAt` on the stored item. -/
theorem updateItem_empty_body_witness :
    findItemPatch dbMain (cleanId "dddddddddddddddddddddddd") = some itemW ∧
    itemW.contactEmail = userA.email ∧
    ∃ cnt, updateItem sampleParse "production" 99 userA
        "dddddddddddddddddddddddd" { extra := [("hacker", "x")] } dbMain =
      .ok ({ dbMain with
              items := updateFirst (fun it => it._id == itemW._id)
                (fun it => { it with updatedAt := 99 }) dbMain.items },
           cnt) :=
  ⟨by decide, by decide,
    updateItem_empty_body_succeeds sampleParse "production" 99 userA
      "dddddddddddddddddddddddd" { extra := [("hacker", "x")] } dbMain itemW
      (by decide) (by decide) rfl rfl rfl rfl rfl rfl rfl rfl⟩

/-- Keys outside the allowlist (the `extra` component of the body) never
influence `PATCH /inventory/:id`. -/
theorem updateItem_extra_irrelevant
    (parse : String → Option Int) (env : String) (now : Int) (user : User)
    (rawId : String) (b : UpdateBody) (e' : List (String × String))
    (db : DB) :
    updateItem parse env now user rawId { b with extra := e' } db =
      updateItem parse env now user rawId b db := by
  cases b
  rfl

/-- C6: an update writes only the allowlisted fields that are present in
the body.  Replacing the non-allowlisted part of the body changes nothing,
the other collections are untouched, and every item entry of the post-state
is either an untouched entry of the pre-state or agrees with a pre-state
entry on `_id`, `contactName`, `contactEmail`, `createdAt`, `userId`, and on
every allowlisted field that is absent from the body — only `updatedAt` is
always rewritten. -/
theorem updateItem_allowlist_frame
    (parse : String → Option Int) (env : String) (now : Int) (user : User)
    (rawId : String) (b : UpdateBody) (e' : List (String × String))
    (db db' : DB) (n : Nat)
    (hok : updateItem parse env now user rawId b db = .ok (db', n)) :
    updateItem parse env now user rawId { b with extra := e' } db =
      .ok (db', n) ∧
    db'.users = db.users ∧ db'.recoveries = db.recoveries ∧
    ∀ J' ∈ db'.items, J' ∈ db.items ∨ ∃ J ∈ db.items,
      J'._id = J._id ∧ J'.contactName = J.contactName ∧
      J'.contactEmail = J.contactEmail ∧ J'.createdAt = J.createdAt ∧
      J'.userId = J.userId ∧ J'.updatedAt = now ∧
      (b.postType = none → J'.postType = J.postType) ∧
      (b.title = none → J'.title = J.title) ∧
      (b.description = none → J'.description = J.description) ∧
      (b.category = none → J'.category = J.category) ∧
      (b.location = none → J'.location = J.location) ∧
      (b.date = none → J'.date = J.date) ∧
      (b.thumbnail = none → J'.thumbnail = J.thumbnail) ∧
      (b.status = none → J'.status = J.status) := by
  refine ⟨(updateItem_extra_irrelevant parse env now user rawId b e'
    db).trans hok, ?_⟩
  unfold updateItem at hok
  cases hf : findItemPatch db (cleanId rawId) with
  | none => rw [hf] at hok; exact Except.noConfusion hok
  | some item =>
    rw [hf] at hok
    dsimp only at hok
    split at hok
    · exact Except.noConfusion hok
    · injection hok with h
      injection h with h1 h2
      subst h1
      refine ⟨rfl, rfl, ?_⟩
      intro J' hJ'
      rcases mem_updateFirst hJ' with h | ⟨y, hy, hpy, hxy⟩
      · exact Or.inl h
      · subst hxy
        refine Or.inr ⟨y, hy, rfl, rfl, rfl, rfl, rfl, rfl,
          ?_, ?_, ?_, ?_, ?_, ?_, ?_, ?_⟩
        all_goals intro hb
        all_goals simp [applyItemUpdate, hb]

/-- C6 witness: a concrete authorized update carrying a non-allowlisted
`contactEmail` key yields the same stored state as the same update without
it, and the post-state satisfies the frame property. -/
theorem updateItem_allowlist_frame_witness :
    updateItem sampleParse "production" 99 userA "dddddddddddddddddddddddd"
        { title := some "New", extra := [] } dbMain =
      .ok ({ users := [userA, userB, userC]
             items := [{ itemW with title := "New", updatedAt := 99 }, itemR]
             recoveries := [recR] }, 1) ∧
    ({ users := [userA, userB, userC]
       items := [{ itemW with title := "New", updatedAt := 99 }, itemR]
       recoveries := [recR] } : DB).users = dbMain.users ∧
    ({ users := [userA, userB, userC]
       items := [{ itemW with title := "New", updatedAt := 99 }, itemR]
       recoveries := [recR] } : DB).recoveries = dbMain.recoveries ∧
    ∀ J' ∈ ({ users := [userA, userB, userC]
              items := [{ itemW with title := "New", updatedAt := 99 }, itemR]
              recoveries := [recR] } : DB).items,
      J' ∈ dbMain.items ∨ ∃ J ∈ dbMain.items,
      J'._id = J._id ∧ J'.contactName = J.contactName ∧
      J'.contactEmail = J.contactEmail ∧ J'.createdAt = J.createdAt ∧
      J'.userId = J.userId ∧ J'.updatedAt = 99 ∧
      (({ title := some "New",
          extra := [("contactEmail", "evil@x.com")] } : UpdateBody).postType
        = none → J'.postType = J.postType) ∧
      (({ title := some "New",
          extra := [("contactEmail", "evil@x.com")] } : UpdateBody).title
        = none → J'.title = J.title) ∧
      (({ title := some "New",
          extra := [("contactEmail", "evil@x.com")] } : UpdateBody).description
        = none → J'.description = J.description) ∧
      (({ title := some "New",
          extra := [("contactEmail", "evil@x.com")] } : UpdateBody).category
        = none → J'.category = J.category) ∧
      (({ title := some "New",
          extra := [("contactEmail", "evil@x.com")] } : UpdateBody).location
        = none → J'.location = J.location) ∧
      (({ title := some "New",
          extra := [("contactEmail", "evil@x.com")] } : UpdateBody).date
        = none → J'.date = J.date) ∧
      (({ title := some "New",
          extra := [("contactEmail", "evil@x.com")] } : UpdateBody).thumbnail
        = none → J'.thumbnail = J.thumbnail) ∧
      (({ title := some "New",
          extra := [("contactEmail", "evil@x.com")] } : UpdateBody).status
        = none → J'.status = J.status) :=
  updateItem_allowlist_frame sampleParse "production" 99 userA
    "dddddddddddddddddddddddd"
    { title := some "New", extra := [("contactEmail", "evil@x.com")] } []
    dbMain
    { users := [userA, userB, userC]
      items := [{ itemW with title := "New", updatedAt := 99 }, itemR]
      recoveries := [recR] } 1 rfl

/-- C7 counterexample: a non-empty allowlisted field set together with an
id under which no recovery exists does not always yield `NotFound`: when the
id is not in canonical ObjectId format the call fails the
"Invalid recovery ID" `ValidationError` instead. -/
theorem updateRecovery_malformed_id_counterexample :
    hasRecoveryUpdateField { notes := some "x" } = true ∧
    (dbMain.recoveries.all (fun r =>
      !(r._id == MongoId.oid "abc") && !(r._id == MongoId.str "abc"))) =
      true ∧
    updateRecovery userB "abc" { notes := some "x" } dbMain =
      .error (.validationError "Invalid recovery ID") ∧
    resultIsNotFound
      (updateRecovery userB "abc" { notes := some "x" } dbMain) = false :=
  ⟨rfl, by decide, rfl, rfl⟩

/-- C7 amended: `updateRecovery` writes only the four allowlisted fields
(non-allowlisted body keys never influence the call, the other collections
are untouched, and every post-state recovery agrees with a pre-state one on
all snapshot fields and on every allowlisted field absent from the body);
with an empty filtered field set it fails `ValidationError` with no state
change; with a non-empty set and a canonical-format id under which no
recovery exists it fails `NotFound` with no state change (a non-canonical
id fails `ValidationError` instead). -/
theorem updateRecovery_contract :
    (∀ (u : User) (idStr : String) (b : RecoveryUpdateBody)
        (e' : List (String × String)) (db : DB),
      updateRecovery u idStr { b with extra := e' } db =
        updateRecovery u idStr b db) ∧
    (∀ (u : User) (idStr : String) (b : RecoveryUpdateBody) (db db' : DB)
        (rec : Recovery),
      updateRecovery u idStr b db = .ok (db', rec) →
      db'.users = db.users ∧ db'.items = db.items ∧
      ∀ r' ∈ db'.recoveries, r' ∈ db.recoveries ∨ ∃ r ∈ db.recoveries,
        r'._id = r._id ∧ r'.itemId = r.itemId ∧
        r'.originalPostType = r.originalPostType ∧
        r'.originalItemData = r.originalItemData ∧
        r'.originalOwner = r.originalOwner ∧
        r'.recoveredBy = r.recoveredBy ∧ r'.createdAt = r.createdAt ∧
        (b.recoveryStatus = none → r'.recoveryStatus = r.recoveryStatus) ∧
        (b.notes = none → r'.notes = r.notes) ∧
        (b.recoveredLocation = none →
          r'.recoveredLocation = r.recoveredLocation) ∧
        (b.recoveredDate = none → r'.recoveredDate = r.recoveredDate)) ∧
    (∀ (u : User) (idStr : String) (b : RecoveryUpdateBody) (db : DB),
      hasRecoveryUpdateField b = false →
      ∃ m, updateRecovery u idStr b db = .error (.validationError m)) ∧
    (∀ (u : User) (idStr : String) (b : RecoveryUpdateBody) (db : DB),
      hasRecoveryUpdateField b = true →
      isValidObjectId idStr = true →
      db.recoveries.find? (fun r => r._id == .oid idStr) = none →
      updateRecovery u idStr b db =
        .error (.notFound "Recovery not found")) := by
  refine ⟨?_, ?_, ?_, ?_⟩
  · intro u idStr b e' db
    cases b
    rfl
  · intro u idStr b db db' rec hok
    unfold updateRecovery at hok
    split at hok
    · exact Except.noConfusion hok
    · split at hok
      · exact Except.noConfusion hok
      · cases hfr : db.recoveries.find? (fun r => r._id == .oid idStr) with
        | none => rw [hfr] at hok; exact Except.noConfusion hok
        | some r0 =>
          rw [hfr] at hok
          injection hok with h
          injection h with h1 h2
          subst h1
          refine ⟨rfl, rfl, ?_⟩
          intro r' hr'
          rcases mem_updateFirst hr' with h | ⟨y, hy, hpy, hxy⟩
          · exact Or.inl h
          · subst hxy
            refine Or.inr ⟨y, hy, rfl, rfl, rfl, rfl, rfl, rfl, rfl,
              ?_, ?_, ?_, ?_⟩
            all_goals intro hb
            all_goals simp [applyRecoveryUpdate, hb]
  · intro u idStr b db hempty
    by_cases hv : isValidObjectId idStr = true
    · refine ⟨"No valid fields to update", ?_⟩
      unfold updateRecovery
      rw [if_neg (by simp [hv])]
      rw [if_pos (by simp [hempty])]
    · refine ⟨"Invalid recovery ID", ?_⟩
      unfold updateRecovery
      rw [if_pos (by simp [Bool.of_not_eq_true hv])]
  · intro u idStr b db hb hv hfind
    unfold updateRecovery
    rw [if_neg (by simp [hv])]
    rw [if_neg (by simp [hb])]
    rw [hfind]

/-- C7 witness: an empty filtered set on a canonical id fails
ValidationError, and a non-empty set on a canonical id with no matching
recovery fails NotFound. -/
theorem updateRecovery_contract_witness :
    hasRecoveryUpdateField { extra := [("evil", "1")] } = false ∧
    (∃ m, updateRecovery userB "ffffffffffffffffffffffff"
      { extra := [("evil", "1")] } dbMain = .error (.validationError m)) ∧
    hasRecoveryUpdateField { notes := some "x" } = true ∧
    isValidObjectId "0123456789abcdef01234567" = true ∧
    dbMain.recoveries.find?
      (fun r => r._id == .oid "0123456789abcdef01234567") = none ∧
    updateRecovery userB "0123456789abcdef01234567" { notes := some "x" }
      dbMain = .error (.notFound "Recovery not found") :=
  ⟨rfl,
    updateRecovery_contract.2.2.1 userB "ffffffffffffffffffffffff"
      { extra := [("evil", "1")] } dbMain rfl,
    rfl, by decide, by decide,
    updateRecovery_contract.2.2.2 userB "0123456789abcdef01234567"
      { notes := some "x" } dbMain rfl (by decide) (by decide)⟩

/-- C5: when a bearer credential is present but its external verification
fails, `protect` does not fail immediately: it falls through to the local
session credential, failing `Unauthenticated` when the cookie is absent or
its verification fails, and `PrincipalNotFound` (the 404 "User not found")
when the credential is valid but the user record referenced by internal id
or by external subject id does not exist. -/
theorem protect_firebase_fallthrough
    (fv : String → Option FirebaseClaims) (jv : String → Option JwtClaims)
    (now : Int) (nid : MongoId) (h : String) (ct : Option String) (db : DB)
    (hbearer : strStartsWith h "Bearer " = true)
    (hfv : fv (bearerToken h) = none) :
    (ct = none → protect fv jv now nid (some h) ct db =
      .error (.unauthenticated "Not authorized, no token")) ∧
    (∀ t, ct = some t → jv t = none →
      protect fv jv now nid (some h) ct db =
        .error (.unauthenticated "Not authorized, token failed")) ∧
    (∀ t c u, ct = some t → jv t = some c → c.userId = some u →
      isValidObjectId u = true →
      db.users.find? (fun x => x._id == .oid u) = none →
      protect fv jv now nid (some h) ct db =
        .error (.notFound "User not found")) ∧
    (∀ t c s, ct = some t → jv t = some c → c.userId = none →
      c.uid = some s →
      db.users.find? (fun x => x.uid == s) = none →
      protect fv jv now nid (some h) ct db =
        .error (.notFound "User not found")) := by
  have hfb : firebaseStep fv now nid (some h) db = none := by
    unfold firebaseStep
    dsimp only
    rw [if_pos hbearer, hfv]
  refine ⟨?_, ?_, ?_, ?_⟩
  · intro hct
    unfold protect
    rw [hfb]
    dsimp only
    rw [hct]
  · intro t hct hjv
    unfold protect
    rw [hfb]
    dsimp only
    rw [hct]
    dsimp only
    rw [hjv]
  · intro t c u hct hjv hcu hvalid hfindu
    unfold protect
    rw [hfb]
    dsimp only
    rw [hct]
    dsimp only
    rw [hjv]
    dsimp only
    rw [hcu]
    dsimp only
    rw [if_pos hvalid, hfindu]
  · intro t c s hct hjv hcu huid hfindu
    unfold protect
    rw [hfb]
    dsimp only
    rw [hct]
    dsimp only
    rw [hjv]
    dsimp only
    rw [hcu]
    dsimp only
    rw [huid]
    dsimp only
    rw [hfindu]

/-- C5 witness: with a bearer header that fails external verification, a
request with no cookie gets the 401 "no token" response, and a request with
a valid session token referencing a nonexistent subject id gets the 404
"User not found" response. -/
theorem protect_firebase_fallthrough_witness :
    strStartsWith "Bearer xyz" "Bearer " = true ∧
    sampleFv (bearerToken "Bearer xyz") = none ∧
    protect sampleFv sampleJv 5 (.oid "9999999999999999999999aa")
        (some "Bearer xyz") none dbMain =
      .error (.unauthenticated "Not authorized, no token") ∧
    sampleJv "tok" = some { userId := none, uid := some "ghost" } ∧
    dbMain.users.find? (fun x => x.uid == "ghost") = none ∧
    protect sampleFv sampleJv 5 (.oid "9999999999999999999999aa")
        (some "Bearer xyz") (some "tok") dbMain =
      .error (.notFound "User not found") :=
  ⟨by decide, rfl,
    (protect_firebase_fallthrough sampleFv sampleJv 5
      (.oid "9999999999999999999999aa") "Bearer xyz" none dbMain
      (by decide) rfl).1 rfl,
    by decide, by decide,
    (protect_firebase_fallthrough sampleFv sampleJv 5
      (.oid "9999999999999999999999aa") "Bearer xyz" (some "tok") dbMain
      (by decide) rfl).2.2.2 "tok"
      { userId := none, uid := some "ghost" } "ghost" rfl (by decide) rfl rfl
      (by decide)⟩

/-- C4: when `deleteItem` succeeds, the post-state — produced by the single
atomic transaction step of the model — contains no recovery referencing the
deleted item and no item with its `_id`, and the dual-identifier lookup of
the request id fails `NotFound`; the other collections are untouched.
(`huniq` says the request id resolves unambiguously to the deleted item,
which holds whenever ids are not reused across the canonical/legacy
schemes.) -/
theorem deleteItem_cascades
    (user : User) (idStr : String) (db db' : DB) (item : Item)
    (hfind : findItem db idStr = some item)
    (hdist : distinctItemIds db)
    (huniq : ∀ J ∈ db.items, idMatches idStr J._id = true → J._id = item._id)
    (hok : deleteItem user idStr db = .ok db') :
    (∀ r ∈ db'.recoveries, r.itemId ≠ item._id) ∧
    (∀ J ∈ db'.items, J._id ≠ item._id) ∧
    findItem db' idStr = none ∧
    db'.users = db.users := by
  unfold deleteItem at hok
  rw [hfind] at hok
  dsimp only at hok
  split at hok
  · exact Except.noConfusion hok
  · injection hok with h1
    subst h1
    have hq : ∀ a : Item, ((a._id == item._id) = true) ↔ a._id = item._id :=
      fun a => by simp
    have hitems : ∀ J ∈ db.items.eraseP (fun it => it._id == item._id),
        J._id ≠ item._id :=
      eraseP_key_none (k := Item._id) hdist hq
    refine ⟨?_, hitems, ?_, rfl⟩
    · intro r hr
      have hmem := List.mem_filter.mp hr
      simpa using hmem.2
    · unfold findItem
      dsimp only
      rw [List.find?_eq_none]
      intro J hJ hmatch
      exact hitems J hJ (huniq J (List.mem_of_mem_eraseP hJ) hmatch)

/-- C4 witness: the owner deletes the recovered item `itemR`; afterwards no
recovery references it, no item carries its id, and looking it up fails. -/
theorem deleteItem_cascades_witness :
    findItem dbMain "eeeeeeeeeeeeeeeeeeeeeeee" = some itemR ∧
    ((∀ r ∈ ({ users := [userA, userB, userC]
               items := [itemW]
               recoveries := [] } : DB).recoveries, r.itemId ≠ itemR._id) ∧
     (∀ J ∈ ({ users := [userA, userB, userC]
               items := [itemW]
               recoveries := [] } : DB).items, J._id ≠ itemR._id) ∧
     findItem { users := [userA, userB, userC]
                items := [itemW]
                recoveries := [] } "eeeeeeeeeeeeeeeeeeeeeeee" = none ∧
     ({ users := [userA, userB, userC]
        items := [itemW]
        recoveries := [] } : DB).users = dbMain.users) :=
  ⟨by decide,
    deleteItem_cascades userA "eeeeeeeeeeeeeeeeeeeeeeee" dbMain
      { users := [userA, userB, userC], items := [itemW], recoveries := [] }
      itemR (by decide) (by decide) (by decide) rfl⟩

theorem createItem_preserves_invariant
    (parse : String → Option Int) (now : Int) (user : User) (b : CreateBody)
    (newItemId : MongoId) (db db' : DB) (iid : MongoId)
    (hinv : statusRecoveryInvariant db)
    (hfresh : ∀ r ∈ db.recoveries, r.itemId ≠ newItemId)
    (hok : createItem parse now user b newItemId db = .ok (db', iid)) :
    statusRecoveryInvariant db' := by
  unfold createItem at hok
  split at hok
  · exact Except.noConfusion hok
  · injection hok with h
    injection h with h1 h2
    subst h1
    intro it hit
    dsimp only at hit ⊢
    rcases List.mem_append.mp hit with h | h
    · exact hinv it h
    · rw [List.mem_singleton] at h
      subst h
      constructor
      · intro hst
        have hsame : ("not-recovered" : String) = "recovered" := hst
        exact absurd hsame (by decide)
      · rintro ⟨r, hr, hri⟩
        exact absurd hri (hfresh r hr)

theorem recover_preserves_invariant
    (parse : String → Option Int) (now : Int) (user : User) (idStr : String)
    (b : RecoverBody) (newRecId : MongoId) (db db' : DB) (rec : Recovery)
    (hinv : statusRecoveryInvariant db)
    (hdist : distinctItemIds db)
    (hok : recover parse now user idStr b newRecId db = .ok (db', rec)) :
    statusRecoveryInvariant db' := by
  unfold recover at hok
  cases hfind : findItem db idStr with
  | none => rw [hfind] at hok; exact Except.noConfusion hok
  | some item =>
    rw [hfind] at hok
    dsimp only at hok
    split at hok
    · exact Except.noConfusion hok
    · split at hok
      · exact Except.noConfusion hok
      · cases hp : parse (b.recoveredDate.getD "") with
        | none => rw [hp] at hok; exact Except.noConfusion hok
        | some d =>
          rw [hp] at hok
          injection hok with h
          injection h with h1 h2
          subst h1
          intro it hit
          dsimp only at hit ⊢
          have hq : ∀ a : Item,
              ((a._id == item._id) = true) ↔ a._id = item._id :=
            fun a => by simp
          rcases mem_updateFirst_key (k := Item._id)
              (f := fun it => { it with status := "recovered", updatedAt := now })
              hdist (fun a => rfl) hq hit with
            ⟨hk, y, hy, hky, hxy⟩ | ⟨hk, hmem⟩
          · subst hxy
            refine iff_of_true rfl ⟨_,
              List.mem_append_right _ (List.mem_singleton_self _), ?_⟩
            exact hk.symm
          · have base := hinv it hmem
            constructor
            · intro hst
              rcases base.mp hst with ⟨r, hr, hri⟩
              exact ⟨r, List.mem_append_left _ hr, hri⟩
            · rintro ⟨r, hr, hri⟩
              rcases List.mem_append.mp hr with hrl | hrr
              · exact base.mpr ⟨r, hrl, hri⟩
              · rw [List.mem_singleton] at hrr
                subst hrr
                exact absurd hri.symm hk

theorem deleteItem_preserves_invariant
    (user : User) (idStr : String) (db db' : DB)
    (hinv : statusRecoveryInvariant db)
    (hdist : distinctItemIds db)
    (hok : deleteItem user idStr db = .ok db') :
    statusRecoveryInvariant db' := by
  unfold deleteItem at hok
  cases hfind : findItem db idStr with
  | none => rw [hfind] at hok; exact Except.noConfusion hok
  | some item =>
    rw [hfind] at hok
    dsimp only at hok
    split at hok
    · exact Except.noConfusion hok
    · injection hok with h1
      subst h1
      intro it hit
      dsimp only at hit ⊢
      have hq : ∀ a : Item,
          ((a._id == item._id) = true) ↔ a._id = item._id :=
        fun a => by simp
      have hid : it._id ≠ item._id :=
        eraseP_key_none (k := Item._id) hdist hq it hit
      have base := hinv it (List.mem_of_mem_eraseP hit)
      constructor
      · intro hst
        rcases base.mp hst with ⟨r, hr, hri⟩
        refine ⟨r, List.mem_filter.mpr ⟨hr, ?_⟩, hri⟩
        simp only [Bool.not_eq_true', beq_eq_false_iff_ne, ne_eq, hri]
        exact hid
      · rintro ⟨r, hr, hri⟩
        exact base.mpr ⟨r, (List.mem_filter.mp hr).1, hri⟩

theorem updateRecovery_preserves_invariant
    (u : User) (idStr : String) (b : RecoveryUpdateBody) (db db' : DB)
    (rec : Recovery)
    (hinv : statusRecoveryInvariant db)
    (hok : updateRecovery u idStr b db = .ok (db', rec)) :
    statusRecoveryInvariant db' := by
  unfold updateRecovery at hok
  split at hok
  · exact Except.noConfusion hok
  · split at hok
    · exact Except.noConfusion hok
    · cases hfr : db.recoveries.find? (fun r => r._id == .oid idStr) with
      | none => rw [hfr] at hok; exact Except.noConfusion hok
      | some r0 =>
        rw [hfr] at hok
        injection hok with h
        injection h with h1 h2
        subst h1
        intro it hit
        dsimp only at hit ⊢
        have base := hinv it hit
        have hmap := map_updateFirst
          (p := fun r => r._id == MongoId.oid idStr)
          (f := applyRecoveryUpdate b) (g := Recovery.itemId)
          (fun a => rfl) db.recoveries
        constructor
        · intro hst
          rcases base.mp hst with ⟨r, hr, hri⟩
          have hmem : it._id ∈ (updateFirst
              (fun r => r._id == MongoId.oid idStr)
              (applyRecoveryUpdate b) db.recoveries).map Recovery.itemId := by
            rw [hmap]
            exact List.mem_map.mpr ⟨r, hr, hri⟩
          rcases List.mem_map.mp hmem with ⟨r', hr', hri'⟩
          exact ⟨r', hr', hri'⟩
        · rintro ⟨r', hr', hri'⟩
          have hmem : it._id ∈ db.recoveries.map Recovery.itemId := by
            rw [← hmap]
            exact List.mem_map.mpr ⟨r', hr', hri'⟩
          rcases List.mem_map.mp hmem with ⟨r, hr, hri⟩
          exact base.mpr ⟨r, hr, hri⟩

/-- C1 counterexample: the claim is false because `update` can set
`status` directly (`status` is in the PATCH allowlist): starting from a
state satisfying the invariant, the owner updates `itemW` with
`{status: "recovered"}`; afterwards `itemW` is `recovered` while no
recovery references it. -/
theorem invariant_update_counterexample :
    statusRecoveryInvariant dbMain ∧
    updateItem sampleParse "production" 9 userA "dddddddddddddddddddddddd"
        { status := some "recovered" } dbMain =
      .ok ({ users := [userA, userB, userC]
             items := [{ itemW with status := "recovered", updatedAt := 9 },
                       itemR]
             recoveries := [recR] }, 1) ∧
    ¬ statusRecoveryInvariant
        { users := [userA, userB, userC]
          items := [{ itemW with status := "recovered", updatedAt := 9 },
                    itemR]
          recoveries := [recR] } :=
  ⟨by decide, rfl, by decide⟩

/-- C1 amended: the invariant "an item's status is `recovered` iff a
committed recovery referencing it exists" is preserved by `create` (with a
fresh inserted id), `recover`, `deleteItem` and `updateRecovery` (the last
three under MongoDB's per-collection `_id` uniqueness); it is NOT preserved
by `update`, which can write `status` directly because `status` is in the
PATCH allowlist. -/
theorem statusRecoveryInvariant_preserved :
    (∀ (parse : String → Option Int) (now : Int) (user : User)
        (b : CreateBody) (newItemId : MongoId) (db db' : DB) (iid : MongoId),
      statusRecoveryInvariant db →
      (∀ r ∈ db.recoveries, r.itemId ≠ newItemId) →
      createItem parse now user b newItemId db = .ok (db', iid) →
      statusRecoveryInvariant db') ∧
    (∀ (parse : String → Option Int) (now : Int) (user : User)
        (idStr : String) (b : RecoverBody) (newRecId : MongoId) (db db' : DB)
        (rec : Recovery),
      statusRecoveryInvariant db → distinctItemIds db →
      recover parse now user idStr b newRecId db = .ok (db', rec) →
      statusRecoveryInvariant db') ∧
    (∀ (user : User) (idStr : String) (db db' : DB),
      statusRecoveryInvariant db → distinctItemIds db →
      deleteItem user idStr db = .ok db' →
      statusRecoveryInvariant db') ∧
    (∀ (u : User) (idStr : String) (b : RecoveryUpdateBody) (db db' : DB)
        (rec : Recovery),
      statusRecoveryInvariant db →
      updateRecovery u idStr b db = .ok (db', rec) →
      statusRecoveryInvariant db') :=
  ⟨fun parse now user b ni db db' iid hinv hfresh hok =>
      createItem_preserves_invariant parse now user b ni db db' iid
        hinv hfresh hok,
    fun parse now user idStr b nr db db' rec hinv hdist hok =>
      recover_preserves_invariant parse now user idStr b nr db db' rec
        hinv hdist hok,
    fun user idStr db db' hinv hdist hok =>
      deleteItem_preserves_invariant user idStr db db' hinv hdist hok,
    fun u idStr b db db' rec hinv hok =>
      updateRecovery_preserves_invariant u idStr b db db' rec hinv hok⟩

/-- C1 witness: a concrete recovery transaction (user B recovers `itemW`)
carries the invariant from `dbMain` to the post-state. -/
theorem statusRecoveryInvariant_preserved_witness :
    statusRecoveryInvariant dbMain ∧ distinctItemIds dbMain ∧
    ∃ db' rec,
      recover sampleParse 7 userB "dddddddddddddddddddddddd"
          { recoveredLocation := some "Station"
            recoveredDate := some "2024-01-05" }
          (.oid "9999999999999999999999bb") dbMain = .ok (db', rec) ∧
      statusRecoveryInvariant db' :=
  ⟨by decide, by decide, _, _, rfl,
    statusRecoveryInvariant_preserved.2.1 sampleParse 7 userB
      "dddddddddddddddddddddddd"
      { recoveredLocation := some "Station"
        recoveredDate := some "2024-01-05" }
      (.oid "9999999999999999999999bb") dbMain _ _
      (by decide) (by decide) rfl⟩

end WIT
